import Mathlib

/-
Verification of the markdown-generator core (src/core/markdown_generator.py).

The Python module is shallowly embedded: pure string/path computations become
Lean functions on `String` (internally on `List Char`), the filesystem that the
traversal routines walk becomes an explicit tree value (`FSTree`), file bytes
become `List Nat`, and code that can raise (strict UTF-8 decoding, makedirs on
an empty path) returns `Except Unit _`.  Recursion over the filesystem tree is
bounded by an explicit `fuel` argument so that every definition is a plain
structural recursion the kernel can evaluate; any fuel at least the height of
the tree yields the function's value, and the theorems quantify over fuel.
-/

namespace MarkdownGenerator

/-- Decidable equality for Except values, used to evaluate the models at
concrete inputs. -/
instance exceptDecEq {ε α : Type} [DecidableEq ε] [DecidableEq α] : DecidableEq (Except ε α)
  | Except.error a, Except.error b =>
    if h : a = b then isTrue (by rw [h]) else isFalse (fun hh => h (by cases hh; rfl))
  | Except.error _, Except.ok _ => isFalse (fun h => Except.noConfusion h)
  | Except.ok _, Except.error _ => isFalse (fun h => Except.noConfusion h)
  | Except.ok a, Except.ok b =>
    if h : a = b then isTrue (by rw [h]) else isFalse (fun hh => h (by cases hh; rfl))

/-! ## Character-list utilities (models of Python str operations, POSIX rules) -/

/-- Model of Python str.split with a single-character separator: every
occurrence of the separator is a cut point and empty pieces are kept, so
splitting the empty string yields one empty piece. -/
def splitOnChar (sep : Char) : List Char → List (List Char)
  | [] => [[]]
  | c :: cs =>
    let r := splitOnChar sep cs
    if c = sep then [] :: r
    else
      match r with
      | [] => [[c]]
      | h :: t => (c :: h) :: t

/-- Concatenation of a list of strings. -/
def concatAll : List String → String
  | [] => ""
  | s :: rest => s ++ concatAll rest

/-- Interleave a separator character between character-list components. -/
def intercalateChars (sep : Char) : List (List Char) → List Char
  | [] => []
  | [x] => x
  | x :: rest => x ++ sep :: intercalateChars sep rest

/-- Whether `needle` occurs as a contiguous substring of `hay`. -/
def hasInfix (hay needle : List Char) : Bool :=
  needle.isPrefixOf hay ||
    (match hay with
     | [] => false
     | _ :: t => hasInfix t needle)

/-- String-level substring test. -/
def strContains (hay needle : String) : Bool := hasInfix hay.data needle.data

/-- Drop every trailing occurrence of a character, Python str.rstrip with a
single-character argument. -/
def dropTrailing (ch : Char) (cs : List Char) : List Char :=
  (cs.reverse.dropWhile (fun c => c = ch)).reverse

/-- Whether the character list `suffix` ends `cs`. -/
def endsWithChars (cs sfx : List Char) : Bool := sfx.reverse.isPrefixOf cs.reverse

/-- String-level suffix test, Python str.endswith. -/
def endsWithStr (s sfx : String) : Bool := endsWithChars s.data sfx.data

/-- String-level prefix test, Python str.startswith. -/
def startsWithStr (s pre : String) : Bool := pre.data.isPrefixOf s.data

/-- ASCII whitespace recognizer for the model of Python str.strip. -/
def isSpaceChar (c : Char) : Bool :=
  c = ' ' || c = '\t' || c = '\n' || c = '\r' || c = '\x0b' || c = '\x0c'

/-- Model of Python str.strip restricted to ASCII whitespace. -/
def strip (s : String) : String :=
  String.mk (((s.data.dropWhile isSpaceChar).reverse.dropWhile isSpaceChar).reverse)

/-- Universal-newline translation performed by Python text-mode reads:
a CRLF pair and a lone CR both become a single LF. -/
def translateNewlines : List Char → List Char
  | [] => []
  | '\r' :: '\n' :: rest => '\n' :: translateNewlines rest
  | '\r' :: rest => '\n' :: translateNewlines rest
  | c :: rest => c :: translateNewlines rest

/-! ## fnmatch: shell-style wildcard matching

Model of Python fnmatch.fnmatch on POSIX, where os.path.normcase is the
identity.  `fnmatch.translate` compiles the pattern into a token sequence
(`*` matches any run of characters including separators, `?` any one
character, `[...]` a character class with `!` negation and `a-z` ranges, an
unterminated `[` is a literal), and the whole name must match the whole
pattern. -/

inductive Tok where
  | star : Tok
  | anyc : Tok
  | lit : Char → Tok
  | cls : Bool → List Char → Tok
deriving DecidableEq

/-- Scan the body of a `[...]` character class up to the closing bracket;
`none` when the bracket is unterminated. -/
def scanBracket (acc : List Char) : List Char → Option (List Char × List Char)
  | [] => none
  | c :: rest =>
    if c = ']' then some (acc.reverse, rest)
    else scanBracket (c :: acc) rest

/-- Handling of a `[` already consumed from the pattern: an optional leading
`!` negates, a `]` right after it is a literal member, and the body runs to
the next `]`; an unterminated bracket degrades to a literal `[` with the
rest of the pattern unconsumed.  Returns the produced token and the pattern
remainder. -/
def translateBracket (ps : List Char) : Tok × List Char :=
  let negPair : Bool × List Char :=
    match ps with
    | '!' :: r => (true, r)
    | _ => (false, ps)
  let prePair : List Char × List Char :=
    match negPair.2 with
    | ']' :: r => ([']'], r)
    | _ => (([] : List Char), negPair.2)
  match scanBracket [] prePair.2 with
  | none => (Tok.lit '[', ps)
  | some (stuff, rest) => (Tok.cls negPair.1 (prePair.1 ++ stuff), rest)

/-- Compile a pattern into tokens; the fuel is the pattern length, and each
step consumes at least one pattern character. -/
def translateFuel : Nat → List Char → List Tok
  | 0, _ => []
  | _ + 1, [] => []
  | fuel + 1, c :: ps =>
    if c = '*' then Tok.star :: translateFuel fuel ps
    else if c = '?' then Tok.anyc :: translateFuel fuel ps
    else if c = '[' then
      let r := translateBracket ps
      r.1 :: translateFuel fuel r.2
    else Tok.lit c :: translateFuel fuel ps

/-- Compile a whole pattern. -/
def translateGlob (p : List Char) : List Tok := translateFuel p.length p

/-- Membership of a character in a class body, with `a-z` ranges; a trailing
or leading dash is a literal member, as in the regular-expression classes
fnmatch.translate produces. -/
def classHas : List Char → Char → Bool
  | [], _ => false
  | a :: '-' :: b :: rest, c =>
    (decide (a ≤ c) && decide (c ≤ b)) || classHas rest c
  | a :: rest, c => (a = c) || classHas rest c

/-- Token matcher; the fuel dominates tokens-plus-name length, and each step
consumes a token or a name character. -/
def matchToksFuel : Nat → List Tok → List Char → Bool
  | 0, _, _ => false
  | _ + 1, [], [] => true
  | _ + 1, [], _ :: _ => false
  | fuel + 1, Tok.star :: ts, s =>
    matchToksFuel fuel ts s ||
      (match s with
       | [] => false
       | _ :: rest => matchToksFuel fuel (Tok.star :: ts) rest)
  | _ + 1, Tok.anyc :: _, [] => false
  | fuel + 1, Tok.anyc :: ts, _ :: s => matchToksFuel fuel ts s
  | _ + 1, Tok.lit _ :: _, [] => false
  | fuel + 1, Tok.lit c :: ts, d :: s => (c = d) && matchToksFuel fuel ts s
  | _ + 1, Tok.cls _ _ :: _, [] => false
  | fuel + 1, Tok.cls neg items :: ts, d :: s =>
    (classHas items d != neg) && matchToksFuel fuel ts s

/-- Match a compiled pattern against a whole name. -/
def matchToks (ts : List Tok) (s : List Char) : Bool :=
  matchToksFuel (ts.length + s.length + 1) ts s

/-- Model of fnmatch.fnmatch(name, pattern) on POSIX. -/
def fnmatch (name pattern : String) : Bool :=
  matchToks (translateGlob pattern.data) name.data

/-! ## POSIX path computations (models of posixpath functions)

The process current working directory is modelled as the filesystem root, so
a relative path handed to abspath resolves directly under `/`. -/

/-- Model of posixpath.normpath on the character level. -/
def normpathChars (p : List Char) : List Char :=
  if p = [] then ['.']
  else
    let initialSlashes : Nat :=
      if p.take 2 = ['/', '/'] ∧ p.take 3 ≠ ['/', '/', '/'] then 2
      else if p.take 1 = ['/'] then 1
      else 0
    let comps := splitOnChar '/' p
    let newComps := comps.foldl
      (fun acc comp =>
        if comp = [] ∨ comp = ['.'] then acc
        else if comp ≠ ['.', '.'] ∨ (initialSlashes = 0 ∧ acc = []) ∨
            acc.getLast? = some ['.', '.'] then acc ++ [comp]
        else if acc ≠ [] then acc.dropLast
        else acc)
      []
    let joined := List.replicate initialSlashes '/' ++ intercalateChars '/' newComps
    if joined = [] then ['.'] else joined

/-- Model of posixpath.normpath. -/
def normpath (s : String) : String := String.mk (normpathChars s.data)

/-- Model of posixpath.abspath with the working directory fixed at `/`. -/
def abspath (s : String) : String :=
  if s.data.take 1 = ['/'] then normpath s
  else normpath (String.mk ('/' :: s.data))

/-- Model of the two-argument posixpath.join. -/
def joinChars (a b : List Char) : List Char :=
  if b.take 1 = ['/'] then b
  else if a = [] ∨ a.getLast? = some '/' then a ++ b
  else a ++ '/' :: b

/-- Model of os.path.join on POSIX with two arguments. -/
def joinPath (a b : String) : String := String.mk (joinChars a.data b.data)

/-- Model of posixpath.dirname. -/
def dirname (s : String) : String :=
  let head := (s.data.reverse.dropWhile (fun c => c ≠ '/')).reverse
  if head = [] then ""
  else if head.all (fun c => c = '/') then String.mk head
  else String.mk (dropTrailing '/' head)

/-- Length of the longest common prefix of two lists. -/
def commonPrefixLen : List (List Char) → List (List Char) → Nat
  | a :: as, b :: bs => if a = b then commonPrefixLen as bs + 1 else 0
  | _, _ => 0

/-- Model of posixpath.relpath: both arguments are made absolute and split
into nonempty components, the common prefix is removed, and the remainder is
reached through `..` components. -/
def relpath (path start : String) : String :=
  let startList := (splitOnChar '/' (abspath start).data).filter (fun x => x ≠ [])
  let pathList := (splitOnChar '/' (abspath path).data).filter (fun x => x ≠ [])
  let i := commonPrefixLen startList pathList
  let relList := List.replicate (startList.length - i) ['.', '.'] ++ pathList.drop i
  if relList = [] then "." else String.mk (intercalateChars '/' relList)

/-! ## The exclusion matcher (should_exclude, lines 40-67 of the source) -/

/-- The root-relative, slash-normalized form of a path: line 52 of the source,
os.path.relpath followed by the backslash-to-slash replacement. -/
def relative_path_of (path root_dir : String) : String :=
  String.mk ((relpath path root_dir).data.map (fun c => if c = '\\' then '/' else c))

/-- The split of the relative path into segments: line 53 of the source. -/
def path_parts (relative_path : String) : List String :=
  (splitOnChar '/' relative_path.data).map String.mk

/-- The body of the pattern loop of should_exclude, lines 56-65: a pattern
with a trailing separator is stripped and tested for exact membership among
the path segments; any other pattern is matched by fnmatch against the whole
relative path. -/
def matches_pattern (pattern relative_path : String) : Bool :=
  if pattern.data.getLast? = some '/' then
    (path_parts relative_path).contains (String.mk (dropTrailing '/' pattern.data))
  else fnmatch relative_path pattern

/-- Model of should_exclude: the source's loop returns True on the first
matching pattern and False when none matches, which is the disjunction over
the pattern list. -/
def should_exclude (path : String) (exclude_patterns : List String) (root_dir : String) : Bool :=
  exclude_patterns.any (fun pattern => matches_pattern pattern (relative_path_of path root_dir))

/-! ## The pattern loader (parse_gitignore, lines 5-37 of the source) -/

/-- The fixed list of standard exclusions, lines 18-21 of the source. -/
def standard_exclusions : List String :=
  [".git/", ".venv/", ".idea/", ".DS_Store", "Thumbs.db", "node_modules/", "__pycache__",
   "build/", "dist/", ".env/", ".eggs/", "*.egg-info/", "*.log", "generated/", "outputs/",
   "androidTest/", "test/"]

/-- Processing of one .gitignore line, lines 29-34 of the source: strip
whitespace, drop blank lines and comments, and remove one leading slash. -/
def gitignore_line (rawLine : String) : Option String :=
  let line := strip rawLine
  if line ≠ "" ∧ ¬ (startsWithStr line "#" = true) then
    some (if startsWithStr line "/" then String.mk (line.data.drop 1) else line)
  else none

/-! ## UTF-8 decoding

Model of reading a file opened with encoding utf-8.  Strict decoding (the
default error handler) either yields the decoded text or raises
UnicodeDecodeError, modelled as `none`; the errors-ignore handler drops the
offending bytes and always yields a string. -/

/-- Whether a numeric code point is a Unicode scalar value, the values a
`Char` may carry; UTF-8 decoding rejects everything else (surrogates and
out-of-range values). -/
def validScalar (n : Nat) : Bool :=
  decide (n < 0xD800) || (decide (0xE000 ≤ n) && decide (n ≤ 0x10FFFF))

/-- Whether a byte is a UTF-8 continuation byte. -/
def isCont (b : Nat) : Bool := decide (0x80 ≤ b) && decide (b < 0xC0)

/-- Strict UTF-8 decoding of a byte list: rejects truncated sequences,
stray continuation bytes, overlong encodings and surrogates, exactly the
sequences CPython's strict utf-8 codec rejects. -/
def utf8DecodeChars : List Nat → Option (List Char)
  | [] => some []
  | b :: rest =>
    if b < 0x80 then (utf8DecodeChars rest).map (fun cs => Char.ofNat b :: cs)
    else if 0xC2 ≤ b ∧ b ≤ 0xDF then
      match rest with
      | b2 :: rest2 =>
        if isCont b2 then
          (utf8DecodeChars rest2).map (fun cs => Char.ofNat ((b - 0xC0) * 64 + (b2 - 0x80)) :: cs)
        else none
      | [] => none
    else if 0xE0 ≤ b ∧ b ≤ 0xEF then
      match rest with
      | b2 :: b3 :: rest3 =>
        let cp := (b - 0xE0) * 4096 + (b2 - 0x80) * 64 + (b3 - 0x80)
        if isCont b2 ∧ isCont b3 ∧ 0x800 ≤ cp ∧ validScalar cp then
          (utf8DecodeChars rest3).map (fun cs => Char.ofNat cp :: cs)
        else none
      | _ => none
    else if 0xF0 ≤ b ∧ b ≤ 0xF4 then
      match rest with
      | b2 :: b3 :: b4 :: rest4 =>
        let cp := (b - 0xF0) * 262144 + (b2 - 0x80) * 4096 + (b3 - 0x80) * 64 + (b4 - 0x80)
        if isCont b2 ∧ isCont b3 ∧ isCont b4 ∧ 0x10000 ≤ cp ∧ cp ≤ 0x10FFFF then
          (utf8DecodeChars rest4).map (fun cs => Char.ofNat cp :: cs)
        else none
      | _ => none
    else none

/-- Strict decode to a string, `none` modelling a UnicodeDecodeError. -/
def utf8Decode (bytes : List Nat) : Option String := (utf8DecodeChars bytes).map String.mk

/-- Best-effort decode modelling errors=ignore: an invalid or truncated
sequence is skipped byte by byte and decoding continues.  The fuel is the
byte count; every step consumes at least one byte. -/
def decodeIgnoreAux : Nat → List Nat → List Char
  | 0, _ => []
  | _ + 1, [] => []
  | fuel + 1, b :: rest =>
    if b < 0x80 then Char.ofNat b :: decodeIgnoreAux fuel rest
    else if 0xC2 ≤ b ∧ b ≤ 0xDF then
      match rest with
      | b2 :: rest2 =>
        if isCont b2 then Char.ofNat ((b - 0xC0) * 64 + (b2 - 0x80)) :: decodeIgnoreAux fuel rest2
        else decodeIgnoreAux fuel (b2 :: rest2)
      | [] => []
    else if 0xE0 ≤ b ∧ b ≤ 0xEF then
      match rest with
      | b2 :: b3 :: rest3 =>
        let cp := (b - 0xE0) * 4096 + (b2 - 0x80) * 64 + (b3 - 0x80)
        if isCont b2 ∧ isCont b3 ∧ 0x800 ≤ cp ∧ validScalar cp then
          Char.ofNat cp :: decodeIgnoreAux fuel rest3
        else decodeIgnoreAux fuel rest
      | _ => decodeIgnoreAux fuel rest
    else if 0xF0 ≤ b ∧ b ≤ 0xF4 then
      match rest with
      | b2 :: b3 :: b4 :: rest4 =>
        let cp := (b - 0xF0) * 262144 + (b2 - 0x80) * 4096 + (b3 - 0x80) * 64 + (b4 - 0x80)
        if isCont b2 ∧ isCont b3 ∧ isCont b4 ∧ 0x10000 ≤ cp ∧ cp ≤ 0x10FFFF then
          Char.ofNat cp :: decodeIgnoreAux fuel rest4
        else decodeIgnoreAux fuel rest
      | _ => decodeIgnoreAux fuel rest
    else decodeIgnoreAux fuel rest

/-- Best-effort decode to a string. -/
def decodeIgnore (bytes : List Nat) : String := String.mk (decodeIgnoreAux bytes.length bytes)

/-- Model of parse_gitignore.  The filesystem interaction is reduced to the
optional byte content of the .gitignore file (`none` when the file does not
exist); reading the file text-mode with encoding utf-8 and the default strict
error handling is modelled by `utf8Decode`, a decode failure propagating
UnicodeDecodeError modelled as `Except.error`.  The result starts with the
standard exclusions and appends the .gitignore patterns in file order. -/
def parse_gitignore (gitignore : Option (List Nat)) : Except Unit (List String) :=
  match gitignore with
  | none => Except.ok standard_exclusions
  | some bytes =>
    match utf8Decode bytes with
    | none => Except.error ()
    | some text =>
      Except.ok (standard_exclusions ++
        (((splitOnChar '\n' (translateNewlines text.data)).map String.mk).filterMap gitignore_line))

/-! ## Filesystem model

A directory's content is a list of entries; a file carries its raw bytes.
os.listdir returns the entry names (model: in stored order, the traversal
code sorts them where the source sorts them), os.path.isdir is the entry's
constructor, and reading a file yields its bytes. -/

inductive FSTree where
  | file : String → List Nat → FSTree
  | dir : String → List FSTree → FSTree

/-- Name of a directory entry. -/
def FSTree.name : FSTree → String
  | .file n _ => n
  | .dir n _ => n

/-- Whether an entry is a directory: os.path.isdir on the entry's path. -/
def FSTree.isDir : FSTree → Bool
  | .dir _ _ => true
  | .file _ _ => false

/-- Code-point comparison of character lists, the order Python sorted uses
on strings. -/
def charListLe : List Char → List Char → Bool
  | [], _ => true
  | _ :: _, [] => false
  | a :: as, b :: bs => if a = b then charListLe as bs else decide (a < b)

/-- Name order on entries. -/
def nameLe (a b : FSTree) : Bool := charListLe a.name.data b.name.data

/-- Stable insertion into a name-sorted list. -/
def insertByName (e : FSTree) : List FSTree → List FSTree
  | [] => [e]
  | x :: xs => if nameLe e x then e :: x :: xs else x :: insertByName e xs

/-- Model of sorted(os.listdir(directory)) lifted to the entries themselves:
a stable sort of the entry list by name in code-point order. -/
def sortByName : List FSTree → List FSTree
  | [] => []
  | x :: xs => insertByName x (sortByName xs)

/-- Bytes of the plain file with the given name directly in the entry list:
os.path.isfile(os.path.join(directory, name)) plus the read; a directory of
that name does not count. -/
def findFile (fname : String) : List FSTree → Option (List Nat)
  | [] => none
  | FSTree.file n b :: rest => if n = fname then some b else findFile fname rest
  | FSTree.dir _ _ :: rest => findFile fname rest

/-- Children of the subdirectory with the given name directly in the entry
list. -/
def findDir (dname : String) : List FSTree → Option (List FSTree)
  | [] => none
  | FSTree.dir n cs :: rest => if n = dname then some cs else findDir dname rest
  | FSTree.file _ _ :: rest => findDir dname rest

/-! ## The tree walker (generate_file_structure, lines 69-126 of the source) -/

/-- Truthiness of the focus_subdir argument: Python treats None and the
empty string as false (line 88 and line 96 guard on `if focus_subdir`). -/
def focusTruthy : Option String → Bool
  | none => false
  | some f => !(f = "")

/-- Line 88 of the source: the absolute focus path, None when focus_subdir
is falsy. -/
def absFocus (root_dir : String) : Option String → Option String
  | none => none
  | some f => if f = "" then none else some (abspath (joinPath root_dir f))

/-- Lines 95-97 of the source: the current directory counts as inside the
focus subtree when a focus is configured and the current absolute path has
the absolute focus path as a string prefix (str.startswith). -/
def inFocusCalc (focus_subdir : Option String) (root_dir abs_directory : String) : Bool :=
  match absFocus root_dir focus_subdir with
  | none => false
  | some af => startsWithStr abs_directory af

/-- The branch ladder of lines 110-121 of the source, reduced to the
decision whether a directory entry is recursed into: the first branch fires
outside the focus when the entry is exactly the focus root, the second
whenever the current directory is in focus, and otherwise the directory is
only listed. -/
def recurse_decision (inFocus : Bool) (focus_subdir : Option String)
    (abs_item_path : String) (abs_focus : Option String) : Bool :=
  if ¬ (inFocus = true) ∧ focusTruthy focus_subdir ∧ abs_focus = some abs_item_path then true
  else if inFocus then true
  else false

/-- Model of generate_file_structure.  The entry list is the content of
`directory`; fuel bounds the recursion depth.  Entries are visited in sorted
name order, excluded entries are skipped, files and unexpanded directories
produce one line, and an expanded directory also appends its own recursive
rendering with the indent grown by two spaces. -/
def generate_file_structure : Nat → List FSTree → String → String → List String → String → Option String → String
  | 0, _, _, _, _, _, _ => ""
  | fuel + 1, entries, directory, indent, exclude_patterns, root_dir, focus_subdir =>
    let abs_focus := absFocus root_dir focus_subdir
    let abs_directory := abspath directory
    let inF := inFocusCalc focus_subdir root_dir abs_directory
    concatAll ((sortByName entries).map (fun e =>
      let item := e.name
      let item_path := joinPath directory item
      let abs_item_path := abspath item_path
      if should_exclude item_path exclude_patterns root_dir then ""
      else
        match e with
        | FSTree.file _ _ => indent ++ "- " ++ item ++ "\n"
        | FSTree.dir _ children =>
          if recurse_decision inF focus_subdir abs_item_path abs_focus then
            indent ++ "- " ++ item ++ "/\n" ++
              generate_file_structure fuel children item_path (indent ++ "  ")
                exclude_patterns root_dir focus_subdir
          else indent ++ "- " ++ item ++ "/\n"))

/-- The recursion condition exactly as the specification states it: a
directory entry is recursed into iff no focus subtree is configured, or the
current directory is inside or equal to the focus subtree, or the entry is
exactly the focus root. -/
def claimed_recursion (abs_focus : Option String) (abs_directory abs_item_path : String) : Bool :=
  match abs_focus with
  | none => true
  | some af => (abs_directory = af || startsWithStr abs_directory (af ++ "/")) || abs_item_path = af

/-- The walker as the specification's recursion policy describes it,
identical to `generate_file_structure` except for the recursion decision. -/
def generate_file_structure_claimC1 : Nat → List FSTree → String → String → List String → String → Option String → String
  | 0, _, _, _, _, _, _ => ""
  | fuel + 1, entries, directory, indent, exclude_patterns, root_dir, focus_subdir =>
    let abs_focus := absFocus root_dir focus_subdir
    let abs_directory := abspath directory
    concatAll ((sortByName entries).map (fun e =>
      let item := e.name
      let item_path := joinPath directory item
      let abs_item_path := abspath item_path
      if should_exclude item_path exclude_patterns root_dir then ""
      else
        match e with
        | FSTree.file _ _ => indent ++ "- " ++ item ++ "\n"
        | FSTree.dir _ children =>
          if claimed_recursion abs_focus abs_directory abs_item_path then
            indent ++ "- " ++ item ++ "/\n" ++
              generate_file_structure_claimC1 fuel children item_path (indent ++ "  ")
                exclude_patterns root_dir focus_subdir
          else indent ++ "- " ++ item ++ "/\n"))

/-- The amended recursion condition: a directory entry is recursed into iff
a focus subtree is configured (non-empty) and either the current directory's
absolute path has the focus's absolute path as a string prefix, or the
entry's absolute path equals the focus's absolute path. -/
def amended_recursion (abs_focus : Option String) (abs_directory abs_item_path : String) : Bool :=
  match abs_focus with
  | none => false
  | some af => startsWithStr abs_directory af || abs_item_path = af

/-- The walker with the amended recursion policy. -/
def generate_file_structure_amended : Nat → List FSTree → String → String → List String → String → Option String → String
  | 0, _, _, _, _, _, _ => ""
  | fuel + 1, entries, directory, indent, exclude_patterns, root_dir, focus_subdir =>
    let abs_focus := absFocus root_dir focus_subdir
    let abs_directory := abspath directory
    concatAll ((sortByName entries).map (fun e =>
      let item := e.name
      let item_path := joinPath directory item
      let abs_item_path := abspath item_path
      if should_exclude item_path exclude_patterns root_dir then ""
      else
        match e with
        | FSTree.file _ _ => indent ++ "- " ++ item ++ "\n"
        | FSTree.dir _ children =>
          if amended_recursion abs_focus abs_directory abs_item_path then
            indent ++ "- " ++ item ++ "/\n" ++
              generate_file_structure_amended fuel children item_path (indent ++ "  ")
                exclude_patterns root_dir focus_subdir
          else indent ++ "- " ++ item ++ "/\n"))

/-! ## The content aggregator (lines 128-210 of the source) -/

/-- Model of include_readme, lines 128-147: README.md is looked for first,
then README.txt, directly in the directory; the file is read with strict
utf-8 decoding (line 143 passes no errors argument), so undecodable bytes
raise, modelled as `Except.error`. -/
def include_readme (entries : List FSTree) : Except Unit String :=
  match findFile "README.md" entries with
  | some bytes =>
    match utf8Decode bytes with
    | none => Except.error ()
    | some text => Except.ok ("### Project README\n\n" ++ text ++ "\n\n")
  | none =>
    match findFile "README.txt" entries with
    | some bytes =>
      match utf8Decode bytes with
      | none => Except.error ()
      | some text => Except.ok ("### Project README\n\n" ++ text ++ "\n\n")
    | none => Except.ok ""

/-- The os.walk loop of include_kotlin_files, lines 169-182: every directory
is visited top-down (os.walk does not prune, the loop discards the dirs list
and only `continue`s past the files of an excluded root); a visited root
that is not excluded contributes one fenced block per .kt file that is not
itself excluded, read with errors=ignore and labelled relative to the
original scan root. -/
def kotlin_walk : Nat → String → List FSTree → List String → String → String → String
  | 0, _, _, _, _, _ => ""
  | fuel + 1, walkRoot, entries, exclude_patterns, root_dir, scan_root =>
    (if should_exclude walkRoot exclude_patterns root_dir then ""
     else concatAll (entries.map (fun e =>
       match e with
       | FSTree.file fname bytes =>
         let file_path := joinPath walkRoot fname
         if endsWithStr fname ".kt" && !(should_exclude file_path exclude_patterns root_dir) then
           "## File: " ++ relpath file_path scan_root ++ "\n\n```kotlin\n" ++
             decodeIgnore bytes ++ "\n```\n"
         else ""
       | FSTree.dir _ _ => ""))) ++
    concatAll (entries.map (fun e =>
      match e with
      | FSTree.dir dname children =>
        kotlin_walk fuel (joinPath walkRoot dname) children exclude_patterns root_dir scan_root
      | FSTree.file _ _ => ""))

/-- Model of include_kotlin_files, lines 150-183. -/
def include_kotlin_files (fuel : Nat) (directory : String) (entries : List FSTree)
    (exclude_patterns : List String) (root_dir : String) : String :=
  kotlin_walk fuel directory entries exclude_patterns root_dir directory

/-- The os.walk loop of include_gradle_and_toml_files, lines 196-210: every
directory is visited with no exclusion filtering at all; files ending in
.gradle.kts and files named libs.versions.toml are read with errors=ignore
and wrapped in kind-tagged fenced blocks labelled relative to the scan
root. -/
def config_walk : Nat → String → List FSTree → String → String
  | 0, _, _, _ => ""
  | fuel + 1, walkRoot, entries, scan_root =>
    concatAll (entries.map (fun e =>
      match e with
      | FSTree.file fname bytes =>
        let file_path := joinPath walkRoot fname
        if endsWithStr fname ".gradle.kts" then
          "### Gradle Script: " ++ relpath file_path scan_root ++ "\n\n```kotlin\n" ++
            decodeIgnore bytes ++ "\n```\n"
        else if fname = "libs.versions.toml" then
          "### Version Catalog: " ++ relpath file_path scan_root ++ "\n\n```toml\n" ++
            decodeIgnore bytes ++ "\n```\n"
        else ""
      | FSTree.dir _ _ => "")) ++
    concatAll (entries.map (fun e =>
      match e with
      | FSTree.dir dname children => config_walk fuel (joinPath walkRoot dname) children scan_root
      | FSTree.file _ _ => ""))

/-- Model of include_gradle_and_toml_files, lines 186-210. -/
def include_gradle_and_toml_files (fuel : Nat) (directory : String) (entries : List FSTree) : String :=
  config_walk fuel directory entries directory

/-! ## The document assembler (lines 213-323 of the source) -/

/-- Result of a generation run: the directory passed to os.makedirs, the
path handed to open for writing (the write overwrites any existing file),
and the document written. -/
structure GenResult where
  mkdir_path : String
  write_path : String
  content : String
deriving DecidableEq

/-- Model of generate_markdown, lines 213-261.  The entry list is the
content of `directory`, and `script_dir` models
pathlib.Path(__file__).parent.resolve() of line 251.  The output is written
to <script_dir>/results/<output_file>, not to the caller-supplied name as
such; os.makedirs is called on the results directory with exist_ok. -/
def generate_markdown (fuel : Nat) (script_dir directory : String) (entries : List FSTree)
    (output_file : String) (focus_subdir : Option String) : Except Unit GenResult := do
  let exclude_patterns ← parse_gitignore (findFile ".gitignore" entries)
  let readme ← include_readme entries
  let markdown_content :=
    "# Android Project Overview\n\n" ++
    "## File Structure\n\n" ++
    "This section provides an organized view of the project's directory and file structure, highlighting authored files.\n\n" ++
    generate_file_structure fuel entries directory "" exclude_patterns directory focus_subdir ++ "\n\n" ++
    "## Project Documentation\n\n" ++ readme ++
    "## Extracted Kotlin Files\n\n" ++
    "Below are the contents of Kotlin files in the project, organized by file paths.\n\n" ++
    include_kotlin_files fuel directory entries exclude_patterns directory ++
    "## Configuration Files\n\n" ++
    include_gradle_and_toml_files fuel directory entries
  let results_dir := joinPath script_dir "results"
  Except.ok { mkdir_path := results_dir,
              write_path := joinPath results_dir output_file,
              content := markdown_content }

/-- Follow a segment sequence through nested directory entries. -/
def dirLookup : List FSTree → List String → Bool
  | _, [] => true
  | es, s :: rest =>
    match findDir s es with
    | some children => dirLookup children rest
    | none => false

/-- Model of os.path.isdir for an absolute path against the modelled tree:
the path is resolved relative to the scan root and followed through
directory entries. -/
def isdirModel (directory : String) (entries : List FSTree) (abs_path : String) : Bool :=
  let rel := relpath abs_path directory
  if rel = "." then true
  else dirLookup entries ((splitOnChar '/' rel.data).map String.mk)

/-- The loop of lines 276-281 of the source: each user-excluded absolute
path becomes its root-relative slash-normalized form, with a trailing slash
appended when the path is a directory. -/
def user_exclude_patterns (directory : String) (entries : List FSTree)
    (user_excluded_paths : List String) : List String :=
  user_excluded_paths.map (fun abs_path =>
    let rel_path := relative_path_of abs_path directory
    if isdirModel directory entries abs_path then
      String.mk (dropTrailing '/' rel_path.data) ++ "/"
    else rel_path)

/-- Model of generate_markdown_with_excludes, lines 263-323.  The pattern
list is the .gitignore-derived list followed by the converted user
exclusions; the document is assembled with focus subtree "app"; then
os.makedirs is called on the dirname of the output path (an empty dirname
makes makedirs raise FileNotFoundError, modelled as `Except.error`; other
filesystem failures are outside the model) and the document is written to
exactly the caller's path. -/
def generate_markdown_with_excludes (fuel : Nat) (directory : String) (entries : List FSTree)
    (output_file_path : String) (user_excluded_paths : List String) : Except Unit GenResult := do
  let base ← parse_gitignore (findFile ".gitignore" entries)
  let exclude_patterns := base ++ user_exclude_patterns directory entries user_excluded_paths
  let readme ← include_readme entries
  let markdown_content :=
    "# Project Overview\n\n" ++
    "## File Structure\n\n" ++
    "This section outlines the hierarchical structure of the project's files and directories.\n\n" ++
    generate_file_structure fuel entries directory "" exclude_patterns directory (some "app") ++
    "\n\n" ++
    "## Project Documentation\n\n" ++ readme ++
    "## Extracted Kotlin Files\n\n" ++
    "Below are the contents of Kotlin files in the project, organized by file paths.\n\n" ++
    include_kotlin_files fuel directory entries exclude_patterns directory ++
    "## Configuration Files\n\n" ++
    include_gradle_and_toml_files fuel directory entries
  let output_dir := dirname output_file_path
  if output_dir = "" then Except.error ()
  else
    Except.ok { mkdir_path := output_dir,
                write_path := output_file_path,
                content := markdown_content }

/-! ## Helper lemmas -/

/-- A permutation of the pattern list leaves List.any unchanged. -/
theorem anyPerm {α : Type} {l l' : List α} (h : l.Perm l') (f : α → Bool) :
    l.any f = l'.any f := by
  cases ha : l.any f with
  | true =>
    rcases List.any_eq_true.mp ha with ⟨x, hx, hfx⟩
    exact (List.any_eq_true.mpr ⟨x, h.mem_iff.mp hx, hfx⟩).symm
  | false =>
    cases hb : l'.any f with
    | false => rfl
    | true =>
      rcases List.any_eq_true.mp hb with ⟨x, hx, hfx⟩
      have : l.any f = true := List.any_eq_true.mpr ⟨x, h.mem_iff.mpr hx, hfx⟩
      rw [ha] at this
      exact this

/-- The last element reported by getLast? is a member of the list. -/
theorem getLastMem {α : Type} : ∀ (l : List α) (a : α), l.getLast? = some a → a ∈ l
  | [], _, h => by cases h
  | [x], a, h => by
    simp only [List.getLast?_singleton, Option.some.injEq] at h
    simp [h]
  | x :: y :: t, a, h => by
    rw [List.getLast?_cons_cons] at h
    exact List.mem_cons_of_mem x (getLastMem (y :: t) a h)

/-- Congruence for the concatenation of a mapped list. -/
theorem concatAllMapCongr {α : Type} {f g : α → String} :
    ∀ (l : List α), (∀ x ∈ l, f x = g x) → concatAll (l.map f) = concatAll (l.map g)
  | [], _ => rfl
  | x :: xs, h => by
    simp only [List.map_cons, concatAll]
    rw [h x (List.mem_cons_self x xs), concatAllMapCongr xs (fun y hy => h y (List.mem_cons_of_mem x hy))]

/-- Entries rendered to the empty string can be dropped: mapping over the
directory-only sublist concatenates to the same string when every file entry
renders empty. -/
theorem concatAllFilterDirs {f : FSTree → String}
    (hfile : ∀ n b, f (FSTree.file n b) = "") :
    ∀ l : List FSTree, concatAll ((l.filter FSTree.isDir).map f) = concatAll (l.map f)
  | [] => rfl
  | FSTree.file n b :: xs => by
    simp only [List.filter_cons, FSTree.isDir, Bool.false_eq_true, if_false, List.map_cons, concatAll]
    rw [hfile n b, String.empty_append, concatAllFilterDirs hfile xs]
  | FSTree.dir n cs :: xs => by
    simp only [List.filter_cons, FSTree.isDir, if_true, List.map_cons, concatAll]
    rw [concatAllFilterDirs hfile xs]

/-- The characters fnmatch treats specially. -/
def isMeta (c : Char) : Bool := c = '*' || c = '?' || c = '['

/-- A pattern without wildcard characters compiles to literal tokens only. -/
theorem translateLiteral : ∀ (l : List Char), l.all (fun c => !(isMeta c)) = true →
    translateFuel l.length l = l.map Tok.lit
  | [], _ => rfl
  | c :: cs, h => by
    rw [List.all_cons, Bool.and_eq_true] at h
    obtain ⟨h1, h2⟩ := h
    simp only [isMeta, Bool.not_eq_eq_eq_not, Bool.not_true, Bool.or_eq_false_iff,
      decide_eq_false_iff_not] at h1
    show translateFuel (cs.length + 1) (c :: cs) = Tok.lit c :: cs.map Tok.lit
    rw [translateFuel, if_neg h1.1.1, if_neg h1.1.2, if_neg h1.2,
      translateLiteral cs h2]

/-- Matching literal tokens is equality of the name with the pattern. -/
theorem matchToksLiteral : ∀ (l s : List Char) (fuel : Nat), l.length ≤ fuel →
    matchToksFuel (fuel + 1) (l.map Tok.lit) s = decide (l = s)
  | [], [], _, _ => by simp [matchToksFuel]
  | [], _ :: _, _, _ => by simp [matchToksFuel]
  | _ :: _, [], _, _ => by simp [matchToksFuel]
  | c :: cs, d :: ds, fuel, h => by
    cases fuel with
    | zero => exact absurd h (by simp)
    | succ fuel' =>
      simp only [List.map_cons, matchToksFuel]
      rw [matchToksLiteral cs ds fuel' (Nat.le_of_succ_le_succ h)]
      by_cases hcd : c = d
      · subst hcd
        simp
      · simp [hcd]

/-- fnmatch with a wildcard-free pattern is plain string equality. -/
theorem fnmatchLiteral (pat s : String) (h : pat.data.all (fun c => !(isMeta c)) = true) :
    fnmatch s pat = decide (s = pat) := by
  unfold fnmatch translateGlob
  rw [translateLiteral pat.data h]
  unfold matchToks
  rw [List.length_map,
    matchToksLiteral pat.data s.data (pat.data.length + s.data.length) (Nat.le_add_right _ _)]
  rw [decide_eq_decide]
  constructor
  · intro hd
    exact (String.ext hd).symm
  · intro hs
    rw [hs]

/-- The source's recursion decision, with inFocus and abs_focus computed as
the source computes them, coincides with the amended condition. -/
theorem recurseDecisionAmended (focus_subdir : Option String)
    (root_dir abs_directory abs_item_path : String) :
    recurse_decision (inFocusCalc focus_subdir root_dir abs_directory) focus_subdir
        abs_item_path (absFocus root_dir focus_subdir)
      = amended_recursion (absFocus root_dir focus_subdir) abs_directory abs_item_path := by
  cases focus_subdir with
  | none => rfl
  | some f =>
    by_cases hf : f = ""
    · simp [absFocus, inFocusCalc, recurse_decision, amended_recursion, focusTruthy, hf]
    · simp only [absFocus, if_neg hf, inFocusCalc, amended_recursion]
      by_cases hs : startsWithStr abs_directory (abspath (joinPath root_dir f)) = true
      · simp [recurse_decision, hs]
      · by_cases hi : abs_item_path = abspath (joinPath root_dir f)
        · simp [recurse_decision, hs, focusTruthy, hf, hi]
        · simp [recurse_decision, hs, focusTruthy, hf, hi, Ne.symm hi]

/-! ## Claim theorems -/

/-- C1 (counterexample): with no focus subtree configured, the source walker
does not recurse into an unexcluded directory entry, while the walker
implementing the specification's recursion policy does; the two disagree on
a one-directory tree. -/
theorem C1_counterexample :
    generate_file_structure 3 [FSTree.dir "d" [FSTree.file "f" []]] "/r" "" [] "/r" none
        = "- d/\n" ∧
    generate_file_structure_claimC1 3 [FSTree.dir "d" [FSTree.file "f" []]] "/r" "" [] "/r" none
        = "- d/\n  - f\n" ∧
    generate_file_structure 3 [FSTree.dir "d" [FSTree.file "f" []]] "/r" "" [] "/r" none
        ≠ generate_file_structure_claimC1 3 [FSTree.dir "d" [FSTree.file "f" []]] "/r" "" [] "/r" none := by
  refine ⟨by decide, by decide, by decide⟩

/-- C1 (amended): a directory entry is recursed into iff a focus subtree is
configured (non-None and non-empty) and either the current directory's
absolute path has the focus's absolute path as a string prefix, or the
entry's absolute path equals the focus's absolute path; with this policy the
source walker and the policy walker agree on every input. -/
theorem C1_theorem : ∀ (fuel : Nat) (entries : List FSTree) (directory indent : String)
    (exclude_patterns : List String) (root_dir : String) (focus_subdir : Option String),
    generate_file_structure fuel entries directory indent exclude_patterns root_dir focus_subdir
      = generate_file_structure_amended fuel entries directory indent exclude_patterns root_dir focus_subdir
  | 0, _, _, _, _, _, _ => rfl
  | fuel + 1, entries, directory, indent, exclude_patterns, root_dir, focus_subdir => by
    simp only [generate_file_structure, generate_file_structure_amended]
    apply concatAllMapCongr
    intro e _
    cases e with
    | file n b => rfl
    | dir n cs =>
      simp only [FSTree.name]
      by_cases hse : should_exclude (joinPath directory n) exclude_patterns root_dir = true
      · simp [hse]
      · simp only [hse, if_false, Bool.false_eq_true]
        rw [recurseDecisionAmended]
        by_cases hd : amended_recursion (absFocus root_dir focus_subdir) (abspath directory)
            (abspath (joinPath directory n)) = true
        · simp only [hd, if_true]
          rw [C1_theorem fuel cs (joinPath directory n) (indent ++ "  ") exclude_patterns
            root_dir focus_subdir]
        · simp [hd]

/-- C3 (counterexample): with the pattern list ["a/b"], the directory
/r/a/b is excluded, yet a Kotlin file in its subdirectory d still
contributes its fenced block, because os.walk is not pruned and the deeper
directory is judged independently. -/
theorem C3_counterexample :
    should_exclude "/r/a/b" ["a/b"] "/r" = true ∧
    include_kotlin_files 5 "/r"
        [FSTree.dir "a" [FSTree.dir "b" [FSTree.dir "d" [FSTree.file "c.kt" [120]]]]]
        ["a/b"] "/r"
      = "## File: a/b/d/c.kt\n\n```kotlin\nx\n```\n" := by
  refine ⟨by decide, by decide⟩

/-- C3 (amended): during source-file aggregation, when should_exclude holds
of a visited directory, the files lying directly in that directory
contribute nothing: the walk's output is unchanged when those direct file
entries are deleted; subdirectories are still visited and judged
independently. -/
theorem C3_theorem : ∀ (fuel : Nat) (walkRoot : String) (entries : List FSTree)
    (exclude_patterns : List String) (root_dir scan_root : String),
    should_exclude walkRoot exclude_patterns root_dir = true →
    kotlin_walk fuel walkRoot entries exclude_patterns root_dir scan_root
      = kotlin_walk fuel walkRoot (entries.filter FSTree.isDir) exclude_patterns root_dir scan_root := by
  intro fuel walkRoot entries exclude_patterns root_dir scan_root h
  cases fuel with
  | zero => rfl
  | succ fuel' =>
    simp only [kotlin_walk, h, if_true]
    congr 1
    exact (concatAllFilterDirs (fun _ _ => rfl) entries).symm

/-- C3 (witness for the amended theorem): a concrete excluded directory with
one direct Kotlin file, whose removal leaves the walk output unchanged. -/
theorem C3_witness :
    should_exclude "/r/x" ["x/"] "/r" = true ∧
    kotlin_walk 2 "/r/x" [FSTree.file "y.kt" [120]] ["x/"] "/r" "/r"
      = kotlin_walk 2 "/r/x" ([FSTree.file "y.kt" [120]].filter FSTree.isDir) ["x/"] "/r" "/r" :=
  ⟨by decide, C3_theorem 2 "/r/x" [FSTree.file "y.kt" [120]] ["x/"] "/r" "/r" (by decide)⟩

/-- C5 (counterexample): the pattern *.log contains no path separator, yet
it matches the relative path a/b.log, which has an intervening directory:
fnmatch's star crosses separators, so a separator-free pattern is not
restricted to single-segment paths. -/
theorem C5_counterexample :
    should_exclude "/r/a/b.log" ["*.log"] "/r" = true ∧
    relative_path_of "/r/a/b.log" "/r" = "a/b.log" ∧
    "*.log".data.contains '/' = false := by
  refine ⟨by decide, by decide, by decide⟩

/-- C5 (amended): a non-directory pattern that is a literal bare filename,
containing no separator and no wildcard character, matches only a relative
path equal to itself, hence never a path with intervening directories;
wildcard patterns are matched against the entire relative path and can
match across separators. -/
theorem C5_theorem : ∀ (pattern path root_dir : String),
    pattern.data.all (fun c => !(isMeta c || c = '/')) = true →
    (relative_path_of path root_dir).data.contains '/' = true →
    should_exclude path [pattern] root_dir = false := by
  intro pattern path root_dir hpat hrel
  have hchars : ∀ c ∈ pattern.data, isMeta c = false ∧ ¬(c = '/') := by
    intro c hc
    have h := List.all_eq_true.mp hpat c hc
    simp only [Bool.not_eq_eq_eq_not, Bool.not_true, Bool.or_eq_false_iff,
      decide_eq_false_iff_not] at h
    exact h
  have hnometa : pattern.data.all (fun c => !(isMeta c)) = true := by
    rw [List.all_eq_true]
    intro c hc
    simp only [Bool.not_eq_eq_eq_not, Bool.not_true]
    exact (hchars c hc).1
  have hlast : ¬(pattern.data.getLast? = some '/') := by
    intro h
    exact (hchars '/' (getLastMem pattern.data '/' h)).2 rfl
  simp only [should_exclude, List.any_cons, List.any_nil, Bool.or_false, matches_pattern,
    if_neg hlast]
  rw [fnmatchLiteral pattern _ hnometa]
  rw [decide_eq_false_iff_not]
  intro heq
  have hmem : '/' ∈ (relative_path_of path root_dir).data := List.elem_iff.mp hrel
  rw [heq] at hmem
  exact (hchars '/' hmem).2 rfl

/-- C5 (witness): the literal pattern foo.txt does not match the two-segment
relative path a/foo.txt. -/
theorem C5_witness :
    ("foo.txt".data.all (fun c => !(isMeta c || c = '/')) = true) ∧
    ((relative_path_of "/r/a/foo.txt" "/r").data.contains '/' = true) ∧
    should_exclude "/r/a/foo.txt" ["foo.txt"] "/r" = false :=
  ⟨by decide, by decide, C5_theorem "foo.txt" "/r/a/foo.txt" "/r" (by decide) (by decide)⟩

/-- C6 (counterexample): should_exclude is purely textual, so with the single
pattern build/ the path /r/build is excluded even when it denotes a plain
file named build and no other pattern is present. -/
theorem C6_counterexample :
    should_exclude "/r/build" ["build/"] "/r" = true ∧
    relative_path_of "/r/build" "/r" = "build" := by
  refine ⟨by decide, by decide⟩

/-- C6 (amended): with the single pattern build/, should_exclude holds
exactly of the paths whose root-relative form has build as a segment at any
depth; the test is purely textual and does not depend on whether the path
denotes a directory, so a plain file named build is excluded as well. -/
theorem C6_theorem : ∀ path root_dir : String,
    should_exclude path ["build/"] root_dir
      = (path_parts (relative_path_of path root_dir)).contains "build" := by
  intro path root_dir
  simp only [should_exclude, List.any_cons, List.any_nil, Bool.or_false, matches_pattern,
    if_pos (by decide : "build/".data.getLast? = some '/')]
  rw [(by decide : String.mk (dropTrailing '/' "build/".data) = "build")]

/-- C8: should_exclude is invariant under permutation of the pattern list,
and equals the plain disjunction of the per-pattern tests over the pattern
list. -/
theorem C8_theorem : ∀ (path root_dir : String) (patterns patterns' : List String),
    patterns.Perm patterns' →
    (should_exclude path patterns root_dir = should_exclude path patterns' root_dir ∧
     should_exclude path patterns root_dir
       = patterns.any (fun pattern => matches_pattern pattern (relative_path_of path root_dir))) := by
  intro path root_dir patterns patterns' h
  exact ⟨anyPerm h _, rfl⟩

/-- C8 (witness): a concrete two-pattern list and its transposition give the
same verdict. -/
theorem C8_witness :
    should_exclude "/r/x/a.log" ["build/", "*.log"] "/r"
        = should_exclude "/r/x/a.log" ["*.log", "build/"] "/r" ∧
    should_exclude "/r/x/a.log" ["build/", "*.log"] "/r"
      = ["build/", "*.log"].any
          (fun pattern => matches_pattern pattern (relative_path_of "/r/x/a.log" "/r")) :=
  C8_theorem "/r/x/a.log" "/r" ["build/", "*.log"] ["*.log", "build/"]
    (List.Perm.swap "*.log" "build/" [])

/-- C9: the standard pattern *.egg-info/ ends with a separator, so it is
tested by exact segment equality, matching exactly when some segment is the
literal string *.egg-info; consequently a directory actually named
foo.egg-info is not excluded by the standard exclusions alone. -/
theorem C9_theorem :
    (∀ path root_dir : String,
      should_exclude path ["*.egg-info/"] root_dir
        = (path_parts (relative_path_of path root_dir)).contains "*.egg-info") ∧
    (∀ path root_dir : String, relative_path_of path root_dir = "foo.egg-info" →
      should_exclude path standard_exclusions root_dir = false) := by
  constructor
  · intro path root_dir
    simp only [should_exclude, List.any_cons, List.any_nil, Bool.or_false, matches_pattern,
      if_pos (by decide : "*.egg-info/".data.getLast? = some '/')]
    rw [(by decide : String.mk (dropTrailing '/' "*.egg-info/".data) = "*.egg-info")]
  · intro path root_dir h
    simp only [should_exclude, h]
    decide

/-- C9 (witness): the concrete directory /r/foo.egg-info survives the
standard exclusions. -/
theorem C9_witness :
    relative_path_of "/r/foo.egg-info" "/r" = "foo.egg-info" ∧
    should_exclude "/r/foo.egg-info" standard_exclusions "/r" = false :=
  ⟨by decide, C9_theorem.2 "/r/foo.egg-info" "/r" (by decide)⟩

/-- C10: the standard pattern __pycache__, written without a trailing
separator, is matched by fnmatch against the whole relative path and is
wildcard-free, so it matches exactly the relative path __pycache__; under
the standard exclusions alone a nested src/__pycache__ is not excluded while
a top-level __pycache__ is. -/
theorem C10_theorem :
    (∀ path root_dir : String,
      should_exclude path ["__pycache__"] root_dir = true ↔
        relative_path_of path root_dir = "__pycache__") ∧
    (∀ path root_dir : String, relative_path_of path root_dir = "src/__pycache__" →
      should_exclude path standard_exclusions root_dir = false) ∧
    (∀ path root_dir : String, relative_path_of path root_dir = "__pycache__" →
      should_exclude path standard_exclusions root_dir = true) := by
  refine ⟨?_, ?_, ?_⟩
  · intro path root_dir
    simp only [should_exclude, List.any_cons, List.any_nil, Bool.or_false, matches_pattern,
      if_neg (by decide : ¬("__pycache__".data.getLast? = some '/'))]
    rw [fnmatchLiteral "__pycache__" _ (by decide)]
    exact decide_eq_true_iff
  · intro path root_dir h
    simp only [should_exclude, h]
    decide
  · intro path root_dir h
    simp only [should_exclude, h]
    decide

/-- C10 (witness): concrete nested and top-level cache directories. -/
theorem C10_witness :
    (relative_path_of "/r/src/__pycache__" "/r" = "src/__pycache__" ∧
     should_exclude "/r/src/__pycache__" standard_exclusions "/r" = false) ∧
    (relative_path_of "/r/__pycache__" "/r" = "__pycache__" ∧
     should_exclude "/r/__pycache__" standard_exclusions "/r" = true) :=
  ⟨⟨by decide, C10_theorem.2.1 "/r/src/__pycache__" "/r" (by decide)⟩,
   ⟨by decide, C10_theorem.2.2 "/r/__pycache__" "/r" (by decide)⟩⟩

set_option maxRecDepth 100000 in
/-- C2 (code bug): the user-unchecked nested directory /r/a/b is converted
to the pattern a/b/, whose directory branch can only ever compare the whole
string a/b against single path segments; the directory is therefore not
excluded, and the generated document still aggregates the Kotlin file
/r/a/b/f.kt that the user asked to remove. -/
theorem C2_theorem :
    user_exclude_patterns "/r" [FSTree.dir "a" [FSTree.dir "b" [FSTree.file "f.kt" [120]]]]
        ["/r/a/b"] = ["a/b/"] ∧
    should_exclude "/r/a/b" (standard_exclusions ++ ["a/b/"]) "/r" = false ∧
    ((generate_markdown_with_excludes 5 "/r"
        [FSTree.dir "a" [FSTree.dir "b" [FSTree.file "f.kt" [120]]]] "/out/x.md"
        ["/r/a/b"]).map
      (fun r => strContains r.content "## File: a/b/f.kt")) = Except.ok true := by
  refine ⟨by decide, by decide, by decide⟩

/-- C4 (counterexample): parse_gitignore and include_readme open their files
with strict utf-8 decoding, so the undecodable byte 0xFF aborts both with a
UnicodeDecodeError instead of completing with best-effort loss. -/
theorem C4_counterexample :
    parse_gitignore (some [255]) = Except.error () ∧
    include_readme [FSTree.file "README.md" [255]] = Except.error () := by
  refine ⟨by decide, by decide⟩

/-- C4 (amended): only include_kotlin_files and include_gradle_and_toml_files
read with errors=ignore and always complete, producing the best-effort
decode of undecodable content; parse_gitignore and include_readme decode
strictly and raise on bytes that fail to decode. -/
theorem C4_theorem : ∀ (bytes : List Nat) (fuel : Nat), utf8Decode bytes = none →
    parse_gitignore (some bytes) = Except.error () ∧
    include_readme [FSTree.file "README.md" bytes] = Except.error () ∧
    include_kotlin_files (fuel + 1) "/r" [FSTree.file "a.kt" bytes] [] "/r"
      = "## File: " ++ "a.kt" ++ "\n\n```kotlin\n" ++ decodeIgnore bytes ++ "\n```\n" ∧
    include_gradle_and_toml_files (fuel + 1) "/r" [FSTree.file "b.gradle.kts" bytes]
      = "### Gradle Script: " ++ "b.gradle.kts" ++ "\n\n```kotlin\n" ++ decodeIgnore bytes ++ "\n```\n" := by
  intro bytes fuel h
  refine ⟨?_, ?_, ?_, ?_⟩
  · simp [parse_gitignore, h]
  · simp [include_readme, findFile, h]
  · simp only [include_kotlin_files, kotlin_walk, List.map_cons, List.map_nil, concatAll,
      (by decide : should_exclude "/r" [] "/r" = false),
      (by decide : endsWithStr "a.kt" ".kt" = true),
      (by decide : should_exclude (joinPath "/r" "a.kt") [] "/r" = false),
      (by decide : relpath (joinPath "/r" "a.kt") "/r" = "a.kt")]
    simp [String.append_empty, String.empty_append, String.append_assoc]
  · simp only [include_gradle_and_toml_files, config_walk, List.map_cons, List.map_nil, concatAll,
      (by decide : endsWithStr "b.gradle.kts" ".gradle.kts" = true),
      (by decide : relpath (joinPath "/r" "b.gradle.kts") "/r" = "b.gradle.kts")]
    simp [String.append_empty, String.empty_append, String.append_assoc]

/-- C4 (witness): the single byte 0xFF is undecodable and exercises all four
readers. -/
theorem C4_witness :
    utf8Decode [255] = none ∧
    (parse_gitignore (some [255]) = Except.error () ∧
     include_readme [FSTree.file "README.md" [255]] = Except.error () ∧
     include_kotlin_files 2 "/r" [FSTree.file "a.kt" [255]] [] "/r"
       = "## File: " ++ "a.kt" ++ "\n\n```kotlin\n" ++ decodeIgnore [255] ++ "\n```\n" ∧
     include_gradle_and_toml_files 2 "/r" [FSTree.file "b.gradle.kts" [255]]
       = "### Gradle Script: " ++ "b.gradle.kts" ++ "\n\n```kotlin\n" ++ decodeIgnore [255] ++ "\n```\n") :=
  ⟨by decide, C4_theorem [255] 1 (by decide)⟩

set_option maxRecDepth 100000 in
/-- C7 (counterexample): generate_markdown ignores the caller-supplied
output name and writes into the results directory next to the script: for
the caller name out.md the document goes to /s/results/out.md, which is
neither the name nor its resolution against the working directory. -/
theorem C7_counterexample :
    ((generate_markdown 3 "/s" "/r" [] "out.md" (some "app")).map
        (fun r => (r.mkdir_path, r.write_path)))
      = Except.ok ("/s/results", "/s/results/out.md") ∧
    ("/s/results/out.md" ≠ "out.md") ∧
    ("/s/results/out.md" ≠ abspath "out.md") := by
  refine ⟨by decide, by decide, by decide⟩

/-- C7 (amended): generate_markdown_with_excludes ensures the parent
directory of the caller's output path exists (os.makedirs on its dirname)
and writes the document to exactly that path, overwriting any existing
file, whenever the run reaches the write: the pattern and README loads
succeed and the output path's dirname is nonempty (a bare file name makes
os.makedirs raise); generate_markdown instead writes into the results
directory next to the script. -/
theorem C7_theorem : ∀ (fuel : Nat) (directory : String) (entries : List FSTree)
    (output_file_path : String) (user_excluded_paths : List String)
    (pats : List String) (readme : String),
    parse_gitignore (findFile ".gitignore" entries) = Except.ok pats →
    include_readme entries = Except.ok readme →
    dirname output_file_path ≠ "" →
    (generate_markdown_with_excludes fuel directory entries output_file_path user_excluded_paths).map
        (fun r => (r.mkdir_path, r.write_path))
      = Except.ok (dirname output_file_path, output_file_path) := by
  intro fuel directory entries output_file_path user_excluded_paths pats readme h1 h2 h3
  simp only [generate_markdown_with_excludes, h1, h2]
  simp only [if_neg h3]
  rfl

/-- C7 (witness): a concrete run on an empty project with an absolute
output path. -/
theorem C7_witness :
    parse_gitignore (findFile ".gitignore" ([] : List FSTree)) = Except.ok standard_exclusions ∧
    include_readme ([] : List FSTree) = Except.ok "" ∧
    dirname "/out/x.md" ≠ "" ∧
    (generate_markdown_with_excludes 2 "/r" [] "/out/x.md" []).map
        (fun r => (r.mkdir_path, r.write_path))
      = Except.ok (dirname "/out/x.md", "/out/x.md") :=
  ⟨by decide, by decide, by decide,
   C7_theorem 2 "/r" [] "/out/x.md" [] standard_exclusions "" (by decide) (by decide) (by decide)⟩

end MarkdownGenerator
